import Mathlib

/-!
Verification development for the `buver` backup-versioning utility.

The development shallowly embeds the core of the program:

* `C_versions` (file `cversions.py`): the ledger that reconciles the physical
  directory listing of the versions root against the logical manifest from the
  config file (`sanify`), exposes the retained version list (`new_ver_dirs`)
  and the next version path (`new_version`), and prunes old versions (`prune`).
* `C_semaphore` (file `csemaphore.py`): the filesystem marker-file mutex
  (`wait`, `signal`, `got_sem`).
* `C_buver.backup` (file `cbuver.py`): the run-level control flow, modelled as
  a trace of the collaborator calls it makes, parametrised by each
  success or failure of each collaborator, together with the `atexit`-registered
  `tgt_clean` safety net.

Filesystem abstraction: a directory listing of the versions root is a
`List String` of the directory names directly under it; `os.path.isdir` of
`root/name` corresponds to membership of `name` in that listing.  The
semaphore marker file is a single `Bool` (present or absent).
-/

/-- Python `int(s)` on strings, restricted to ASCII: after stripping
leading/trailing whitespace and an optional sign, the body must be decimal
digits with single underscores allowed only between digits.  `none` models an
uncaught `ValueError`. -/
def pyIsSpace (c : Char) : Bool :=
  c = ' ' || c = '\t' || c = '\n' || c = '\r' || c = '\x0b' || c = '\x0c'

/-- Digit value of an ASCII digit character. -/
def digitVal (c : Char) : Nat := c.toNat - 48

/-- Parse the remainder of a digit body after the first digit: digits, with a
single underscore permitted only between two digits (Python 3 int literal
rule). -/
def pyIntRest (acc : Nat) : List Char → Option Nat
  | [] => some acc
  | '_' :: c :: cs => if c.isDigit then pyIntRest (acc * 10 + digitVal c) cs else none
  | c :: cs => if c.isDigit then pyIntRest (acc * 10 + digitVal c) cs else none

/-- Parse a non-empty all-digit body (first character must be a digit). -/
def pyIntBody : List Char → Option Nat
  | [] => none
  | c :: cs => if c.isDigit then pyIntRest (digitVal c) cs else none

/-- Parse an optional sign followed by a digit body. -/
def pyIntSigned : List Char → Option Int
  | '+' :: rest => (pyIntBody rest).map Int.ofNat
  | '-' :: rest => (pyIntBody rest).map (fun n => -(Int.ofNat n : Int))
  | rest => (pyIntBody rest).map Int.ofNat

/-- Python `int(s)` for a string `s`: strip surrounding whitespace, then an
optional sign and a digit body.  `none` models the `ValueError` that Python
raises (uncaught in `cversions.sanify`). -/
def pyInt (s : String) : Option Int :=
  pyIntSigned (((s.data.dropWhile pyIsSpace).reverse.dropWhile pyIsSpace).reverse)

/-- `os.path.join(a, b)` for a directory `a` and a plain name `b`. -/
def pyJoin (a b : String) : String := a ++ "/" ++ b

/-- Messages emitted through the `msgout` handler of `C_versions`. -/
inductive Msg
  | noPhysicalView
  | onDiskNotConfig (v : String)
  | inConfigNotDisk (v : String)
  | mismatched
  | internalNextExists (d : String)
  | pruneInvalidState
  | pruneMultiple
  | rmCommand (path : String)
deriving DecidableEq, Repr

/-- State of a `C_versions` object (file `cversions.py`).  `keepers` and
`nextdir` are `[]` / `""` until `sanify` assigns them, mirroring the Python
attributes that do not exist before assignment. -/
structure Ledger where
  verdir : String
  pview : Bool
  sane : Bool
  pruned : Bool
  dirlist : List String
  keepers : List String
  nextdir : String
deriving DecidableEq, Repr

/-- `C_versions.__init__` + `load_disk_versions`: scan the versions root.
`none` models a missing root (`os.path.isdir` false: `pview` stays false),
`some ds` the listing of directory names under the root (files already
excluded, as in the `os.path.isdir` filter of the source); the source also
skips `.` and `..` entries. -/
def mkLedger (verdir : String) (rootDirs : Option (List String)) : Ledger :=
  match rootDirs with
  | none =>
      { verdir := verdir, pview := false, sane := false, pruned := false,
        dirlist := [], keepers := [], nextdir := "" }
  | some ds =>
      { verdir := verdir, pview := true, sane := false, pruned := false,
        dirlist := ds.filter (fun f => !(f == "." || f == "..")),
        keepers := [], nextdir := "" }

/-- Result of a `sanify` call: the updated object state, the messages printed,
and the return code (0 success, 1 no physical view, 2 consistency mismatch,
3 next directory already exists). -/
structure SanifyResult where
  st : Ledger
  msgs : List Msg
  rc : Nat
deriving DecidableEq, Repr

/-- Tail of `sanify` (source lines 118-132): store `keepers`, compute
`nextdir = os.path.join(verdir, keepers[-1])`, and fail with rc 3 if that
directory already exists on disk (`fs` is the live listing of the versions
root), else mark the object sane. -/
def sanifyFinish (st : Ledger) (keepers : List String) (fs : List String) : SanifyResult :=
  let nid := keepers.getLastD ""
  let nextdir := pyJoin st.verdir nid
  if fs.contains nid then
    { st := { st with keepers := keepers, nextdir := nextdir },
      msgs := [Msg.internalNextExists nextdir], rc := 3 }
  else
    { st := { st with keepers := keepers, nextdir := nextdir, sane := true },
      msgs := [], rc := 0 }

/-- `C_versions.sanify(num_versions, logical_versions)`.  `fs` is the live
directory listing of the versions root used by the `os.path.isdir(nextdir)`
check.  `none` models the uncaught `ValueError` from
`int(logical_versions[-1])` when the last manifest entry is not an integer
string. -/
def sanify (st : Ledger) (num_versions : Int) (logical_versions fs : List String) :
    Option SanifyResult :=
  if st.pview = false then some { st := st, msgs := [Msg.noPhysicalView], rc := 1 }
  else
    let extraDisk := st.dirlist.filter (fun v => !logical_versions.contains v)
    let missingDisk := logical_versions.filter (fun v => !st.dirlist.contains v)
    if extraDisk.length != 0 || missingDisk.length != 0 then
      some { st := st,
             msgs := extraDisk.map Msg.onDiskNotConfig ++
                     missingDisk.map Msg.inConfigNotDisk ++ [Msg.mismatched],
             rc := 2 }
    else
      let keep : Int := num_versions - 1
      let keepers0 : List String :=
        if 0 < keep then
          logical_versions.drop (logical_versions.length - keep.toNat)
        else []
      if 0 < logical_versions.length then
        match pyInt (logical_versions.getLastD "") with
        | none => none
        | some n => some (sanifyFinish st (keepers0 ++ [toString (n + 1)]) fs)
      else
        some (sanifyFinish st (keepers0 ++ ["1"]) fs)

/-- `C_versions.new_ver_dirs`: the retained version ids (`retainedIds()` of the
spec), or `[]` when not sane. -/
def new_ver_dirs (st : Ledger) : List String :=
  if st.sane then st.keepers else []

/-- `C_versions.new_version`: the path of the next version directory, or the
sentinel when not sane. -/
def new_version (st : Ledger) : String :=
  if st.sane then st.nextdir else pyJoin st.verdir "INVALID_STATE"

/-- The next version id (`nextId` of the spec): the last element of `keepers`,
i.e. the basename of `nextdir`. -/
def nextId (st : Ledger) : String := st.keepers.getLastD ""

/-- The retention window (`RetentionWindow` of the spec): `keepers` without the
final next id. -/
def retentionWindow (st : Ledger) : List String := st.keepers.dropLast

/-- Result of a `prune` call: the updated state, the messages printed, the
directories for which an `rm -rf` was issued (`attempted`), the subset whose
deletion succeeded (`removed`), and the return code. -/
structure PruneResult where
  st : Ledger
  msgs : List Msg
  attempted : List String
  removed : List String
  rc : Nat
deriving DecidableEq, Repr

/-- `C_versions.prune`.  `rmFails v` says whether the `rm -rf` command for
version `v` fails; the source discards the `os.system` return value, so
`rmFails` influences only which deletions actually took effect (`removed`),
never the control flow or the return code. -/
def prune (rmFails : String → Bool) (st : Ledger) : PruneResult :=
  if st.sane = false then
    { st := st, msgs := [Msg.pruneInvalidState], attempted := [], removed := [], rc := 1 }
  else if st.pruned = true then
    { st := st, msgs := [Msg.pruneMultiple], attempted := [], removed := [], rc := 2 }
  else
    let doomed := st.dirlist.filter (fun v => !st.keepers.contains v)
    { st := { st with pruned := true },
      msgs := doomed.map (fun v => Msg.rmCommand (pyJoin st.verdir v)),
      attempted := doomed,
      removed := doomed.filter (fun v => !rmFails v),
      rc := 0 }

/-! ## Semaphore (`csemaphore.py`) -/

/-- State of a `C_semaphore` object together with the marker file: `sem_locked`
is the in-memory flag, `marker` says whether the marker file `root/name`
currently exists. -/
structure SemWorld where
  sem_locked : Bool
  marker : Bool
deriving DecidableEq, Repr

/-- `C_semaphore.got_sem`: the in-memory flag only. -/
def got_sem (st : SemWorld) : Bool := st.sem_locked

/-- Messages printed by `C_semaphore.signal` when close/remove fail. -/
inductive SemMsg
  | closeFail
  | removeFail
deriving DecidableEq, Repr

/-- The retry loop of `C_semaphore.wait` (source: `attempt = 1; while got_it == 0
and attempt < maxtries: try create / except: attempt += 1; sleep(1)`).
`remaining` is the number of loop iterations still allowed
(initially `maxtries - 1`, since `attempt` starts at 1); `occupied k` says
whether the exclusive create of the `k`-th attempt (0-based) fails because the
marker file exists at that moment.  Returns (acquired, creation attempts made,
one-second sleeps performed). -/
def waitLoop (occupied : Nat → Bool) : Nat → Nat → Nat → Nat → Bool × Nat × Nat
  | 0, _, attempts, sleeps => (false, attempts, sleeps)
  | remaining + 1, k, attempts, sleeps =>
    if occupied k then waitLoop occupied remaining (k + 1) (attempts + 1) (sleeps + 1)
    else (true, attempts + 1, sleeps)

/-- Result of a `wait` call: the updated state, the returned value (`true` =
failure, as in the Python source), and the numbers of creation attempts and
sleeps performed. -/
structure WaitResult where
  st : SemWorld
  failed : Bool
  attempts : Nat
  sleeps : Nat
deriving DecidableEq, Repr

/-- `C_semaphore.wait(maxtries)`.  `rootExists` models `os.path.isdir(sem_path)`;
on success the marker file is created and `sem_locked` is set. -/
def wait (st : SemWorld) (rootExists : Bool) (occupied : Nat → Bool) (maxtries : Nat) :
    WaitResult :=
  if rootExists = false then { st := st, failed := true, attempts := 0, sleeps := 0 }
  else
    match waitLoop occupied (maxtries - 1) 0 0 0 with
    | (got, attempts, sleeps) =>
      if got then
        { st := { sem_locked := true, marker := true },
          failed := false, attempts := attempts, sleeps := sleeps }
      else { st := st, failed := true, attempts := attempts, sleeps := sleeps }

/-- Result of a `signal` call: updated state, returned value (`true` = not
held / failure), messages printed. -/
structure SignalResult where
  st : SemWorld
  failed : Bool
  msgs : List SemMsg
deriving DecidableEq, Repr

/-- `C_semaphore.signal`: if the flag shows the semaphore is not held, return
failure with no side effect; otherwise close the handle, remove the marker file
(`os.remove` of an absent file raises `OSError`, caught and logged), clear the
flag and return success. -/
def signal (st : SemWorld) : SignalResult :=
  if st.sem_locked = false then { st := st, failed := true, msgs := [] }
  else
    { st := { sem_locked := false, marker := false },
      failed := false,
      msgs := if st.marker then [] else [SemMsg.removeFail] }

/-! ## Backup workflow (`cbuver.py`) -/

/-- Outcomes of the collaborator calls made by `C_buver.backup`: each field
says whether the corresponding call reports failure (a truthy / non-zero
return in the source). -/
structure BackupEnv where
  waitFails : Bool
  loadFails : Bool
  sanifyFails : Bool
  pruneFails : Bool
  mkdirFails : Bool
  archiveFails : Bool
  saveFails : Bool
deriving DecidableEq, Repr

/-- Observable events of a backup run, in program order. -/
inductive Ev
  | semWait
  | semSignal
  | configLoad
  | configDump
  | sanifyCall
  | pruneCall
  | mkdirCall
  | backupVersionCall
  | archiveFailMsg
  | setVerDirs
  | configSave
  | cleanupMsg
deriving DecidableEq, Repr

/-- `C_buver.backup` (source lines 190-246), as the trace of collaborator
calls it performs and its return code (`none` is the implicit `None` of the
all-success path). -/
def backup (e : BackupEnv) : List Ev × Option Nat :=
  if e.waitFails then ([Ev.semWait], some 1)
  else if e.loadFails then ([Ev.semWait, Ev.configLoad, Ev.semSignal], some 2)
  else if e.sanifyFails then
    ([Ev.semWait, Ev.configLoad, Ev.configDump, Ev.sanifyCall], some 3)
  else if e.pruneFails then
    ([Ev.semWait, Ev.configLoad, Ev.configDump, Ev.sanifyCall, Ev.pruneCall], some 4)
  else if e.mkdirFails then
    ([Ev.semWait, Ev.configLoad, Ev.configDump, Ev.sanifyCall, Ev.pruneCall,
      Ev.mkdirCall], some 5)
  else
    let t0 := [Ev.semWait, Ev.configLoad, Ev.configDump, Ev.sanifyCall, Ev.pruneCall,
               Ev.mkdirCall, Ev.backupVersionCall]
    let t1 := if e.archiveFails then t0 ++ [Ev.archiveFailMsg] else t0
    let t2 := t1 ++ [Ev.setVerDirs, Ev.configSave]
    if e.saveFails then (t2, some 6)
    else (t2 ++ [Ev.semSignal], none)

/-- `C_buver.tgt_clean`, the `atexit`-registered safety net: prints a message
and calls `signal()` on the semaphore (the `semaphore` attribute is always set
by `__init__` before registration). -/
def tgt_clean_trace : List Ev := [Ev.cleanupMsg, Ev.semSignal]

/-- A full backup run: `backup` followed by the `atexit` handlers at process
termination. -/
def backupRun (e : BackupEnv) : List Ev × Option Nat :=
  ((backup e).1 ++ tgt_clean_trace, (backup e).2)

/-! ## Concrete states used by scenario theorems and witnesses -/

/-- Ledger state after a successful `sanify 3` on scenario B
(manifest and disk both 1..4). -/
def stB : Ledger :=
  { verdir := "V", pview := true, sane := true, pruned := false,
    dirlist := ["1","2","3","4"], keepers := ["3","4","5"], nextdir := "V/5" }

/-- A validated ledger with two prunable directories, used to exercise
`prune` under a deletion failure. -/
def stC7 : Ledger :=
  { verdir := "V", pview := true, sane := true, pruned := false,
    dirlist := ["1","2","3"], keepers := ["3","4"], nextdir := "V/4" }

/-- Ledger state after a successful `sanify 2` on disk/manifest 7. -/
def stW : Ledger :=
  { verdir := "W", pview := true, sane := true, pruned := false,
    dirlist := ["7"], keepers := ["7","8"], nextdir := "W/8" }

/-- Ledger state after a successful `sanify 3` on disk/manifest 41. -/
def stU : Ledger :=
  { verdir := "U", pview := true, sane := true, pruned := false,
    dirlist := ["41"], keepers := ["41","42"], nextdir := "U/42" }

/-! ## Helper lemmas -/

theorem getLastD_concat_eq (l : List String) (a d : String) : (l ++ [a]).getLastD d = a := by
  induction l with
  | nil => rfl
  | cons x xs ih =>
      cases xs with
      | nil => rfl
      | cons y ys => simpa using ih

theorem sanifyFinish_success (st st2 : Ledger) (keepers fs : List String) (msgs : List Msg)
    (h : sanifyFinish st keepers fs = { st := st2, msgs := msgs, rc := 0 }) :
    st2 = { st with keepers := keepers,
                    nextdir := pyJoin st.verdir (keepers.getLastD ""), sane := true } ∧
    msgs = [] ∧ fs.contains (keepers.getLastD "") = false := by
  rw [sanifyFinish] at h
  split at h
  · simp at h
  · rename_i hc
    simp only [SanifyResult.mk.injEq] at h
    exact ⟨h.1.symm, h.2.1.symm, by simpa using hc⟩

/-- Shape of every successful `sanify` call: the object becomes sane, `keepers`
is the trailing retention window of the manifest followed by the next id, no
message is printed, the next id is not on disk, and the next id is the
incremented last manifest entry (or "1" for an empty manifest). -/
theorem sanify_success_spec (st st2 : Ledger) (num : Int) (logical fs : List String)
    (msgs : List Msg)
    (h : sanify st num logical fs = some { st := st2, msgs := msgs, rc := 0 }) :
    ∃ nid : String,
      st2 = { st with
                keepers := (if 0 < num - 1 then
                             logical.drop (logical.length - (num - 1).toNat) else []) ++ [nid],
                nextdir := pyJoin st.verdir nid, sane := true } ∧
      msgs = [] ∧ fs.contains nid = false ∧
      (logical = [] → nid = "1") ∧
      (logical ≠ [] → ∃ n : Int, pyInt (logical.getLastD "") = some n ∧
        nid = toString (n + 1)) := by
  simp only [sanify] at h
  split at h
  · simp at h
  · split at h
    · simp at h
    · split at h
      · rename_i hlen
        cases hpi : pyInt (logical.getLastD "") with
        | none => rw [hpi] at h; simp at h
        | some n =>
            rw [hpi] at h
            simp only [Option.some.injEq] at h
            obtain ⟨h1, h2, h3⟩ := sanifyFinish_success _ _ _ _ _ h
            rw [getLastD_concat_eq] at h1 h3
            refine ⟨toString (n + 1), h1, h2, h3, ?_, ?_⟩
            · intro hnil; subst hnil; simp at hlen
            · intro _; exact ⟨n, rfl, rfl⟩
      · rename_i hlen
        simp only [Option.some.injEq] at h
        obtain ⟨h1, h2, h3⟩ := sanifyFinish_success _ _ _ _ _ h
        rw [getLastD_concat_eq] at h1 h3
        have hnil : logical = [] := by
          cases logical with
          | nil => rfl
          | cons a l => simp at hlen
        refine ⟨"1", h1, h2, h3, fun _ => rfl, fun hne => absurd hnil hne⟩

theorem waitLoop_all_occupied (n : Nat) : ∀ k a s,
    waitLoop (fun _ => true) n k a s = (false, a + n, s + n) := by
  induction n with
  | zero => intro k a s; rfl
  | succ m ih =>
      intro k a s
      simp [waitLoop, ih]
      omega

/-! ## Claim theorems -/

/-- C1: whenever the symmetric difference between the physical directory set
and the manifest is non-empty, `sanify` returns rc 2 (`ConsistencyError`) with
the object unchanged, the printed messages report every on-disk-but-unlisted
entry and every listed-but-missing-on-disk entry, the ledger is not marked
sane, and a subsequent `prune` on that instance attempts no deletion and
returns an error. -/
theorem sanify_mismatch_blocks (st : Ledger) (num : Int) (logical fs : List String)
    (rmFails : String → Bool)
    (hp : st.pview = true) (hs : st.sane = false)
    (hdiff : ∃ v, (v ∈ st.dirlist ∧ v ∉ logical) ∨ (v ∈ logical ∧ v ∉ st.dirlist)) :
    sanify st num logical fs =
      some { st := st,
             msgs := (st.dirlist.filter (fun v => !logical.contains v)).map Msg.onDiskNotConfig
                     ++ (logical.filter (fun v => !st.dirlist.contains v)).map Msg.inConfigNotDisk
                     ++ [Msg.mismatched],
             rc := 2 } ∧
    (∀ v ∈ st.dirlist, v ∉ logical →
      Msg.onDiskNotConfig v ∈
        (st.dirlist.filter (fun v => !logical.contains v)).map Msg.onDiskNotConfig
        ++ (logical.filter (fun v => !st.dirlist.contains v)).map Msg.inConfigNotDisk
        ++ [Msg.mismatched]) ∧
    (∀ v ∈ logical, v ∉ st.dirlist →
      Msg.inConfigNotDisk v ∈
        (st.dirlist.filter (fun v => !logical.contains v)).map Msg.onDiskNotConfig
        ++ (logical.filter (fun v => !st.dirlist.contains v)).map Msg.inConfigNotDisk
        ++ [Msg.mismatched]) ∧
    prune rmFails st =
      { st := st, msgs := [Msg.pruneInvalidState], attempted := [], removed := [], rc := 1 } := by
  have hcond : ((st.dirlist.filter (fun v => !logical.contains v)).length != 0 ||
                (logical.filter (fun v => !st.dirlist.contains v)).length != 0) = true := by
    obtain ⟨v, hv | hv⟩ := hdiff
    · have hm : v ∈ st.dirlist.filter (fun v => !logical.contains v) := by
        simp [List.mem_filter, hv.1, hv.2]
      have hl : (st.dirlist.filter (fun v => !logical.contains v)).length ≠ 0 := by
        have := List.length_pos.2 (List.ne_nil_of_mem hm)
        omega
      simp only [bne_iff_ne, ne_eq, Bool.or_eq_true, decide_eq_true_eq]
      exact Or.inl hl
    · have hm : v ∈ logical.filter (fun v => !st.dirlist.contains v) := by
        simp [List.mem_filter, hv.1, hv.2]
      have hl : (logical.filter (fun v => !st.dirlist.contains v)).length ≠ 0 := by
        have := List.length_pos.2 (List.ne_nil_of_mem hm)
        omega
      simp only [bne_iff_ne, ne_eq, Bool.or_eq_true, decide_eq_true_eq]
      exact Or.inr hl
  refine ⟨?_, ?_, ?_, ?_⟩
  · simp only [sanify, hp]
    rw [if_neg (by simp), if_pos hcond]
  · intro v hv hnv
    refine List.mem_append.2 (Or.inl (List.mem_append.2 (Or.inl ?_)))
    exact List.mem_map.2 ⟨v, by simp [List.mem_filter, hv, hnv], rfl⟩
  · intro v hv hnv
    refine List.mem_append.2 (Or.inl (List.mem_append.2 (Or.inr ?_)))
    exact List.mem_map.2 ⟨v, by simp [List.mem_filter, hv, hnv], rfl⟩
  · simp [prune, hs]

theorem sanify_mismatch_blocks_witness :
    sanify (mkLedger "M" (some ["1","2"])) 3 ["1","3"] ["1","2"] =
      some { st := mkLedger "M" (some ["1","2"]),
             msgs := [Msg.onDiskNotConfig "2", Msg.inConfigNotDisk "3", Msg.mismatched],
             rc := 2 } ∧
    prune (fun _ => false) (mkLedger "M" (some ["1","2"])) =
      { st := mkLedger "M" (some ["1","2"]), msgs := [Msg.pruneInvalidState],
        attempted := [], removed := [], rc := 1 } := by
  have h := sanify_mismatch_blocks (mkLedger "M" (some ["1","2"])) 3 ["1","3"] ["1","2"]
    (fun _ => false) rfl rfl ⟨"2", Or.inl ⟨by decide, by decide⟩⟩
  exact ⟨h.1.trans (by decide), h.2.2.2⟩

/-- C2: after every successful `sanify` with retention count in [1,10], the
retained id list returned by `new_ver_dirs` has at most `num` elements, and
every retained id other than the next id is an element of the manifest. -/
theorem sanify_retention_bound (st st2 : Ledger) (num : Int) (logical fs : List String)
    (msgs : List Msg) (h1 : 1 ≤ num) (h2 : num ≤ 10)
    (hsucc : sanify st num logical fs = some { st := st2, msgs := msgs, rc := 0 }) :
    (new_ver_dirs st2).length ≤ num.toNat ∧
    ∀ v ∈ new_ver_dirs st2, v ≠ nextId st2 → v ∈ logical := by
  obtain ⟨nid, hst, -, -, -, -⟩ := sanify_success_spec st st2 num logical fs msgs hsucc
  have hsane : st2.sane = true := by rw [hst]
  have hkeep : st2.keepers =
      (if 0 < num - 1 then logical.drop (logical.length - (num - 1).toNat) else []) ++ [nid] := by
    rw [hst]
  have hretained : new_ver_dirs st2 = st2.keepers := by simp [new_ver_dirs, hsane]
  have hnext : nextId st2 = nid := by
    rw [nextId, hkeep, getLastD_concat_eq]
  constructor
  · rw [hretained, hkeep]
    by_cases hk : (0:Int) < num - 1
    · rw [if_pos hk]
      simp only [List.length_append, List.length_drop, List.length_cons, List.length_nil]
      omega
    · rw [if_neg hk]
      simp only [List.nil_append, List.length_cons, List.length_nil]
      omega
  · intro v hv hvne
    rw [hretained, hkeep] at hv
    rw [hnext] at hvne
    rcases List.mem_append.1 hv with hv0 | hv1
    · by_cases hk : (0:Int) < num - 1
      · rw [if_pos hk] at hv0
        exact List.drop_subset _ _ hv0
      · rw [if_neg hk] at hv0
        simp at hv0
    · simp at hv1
      exact absurd hv1 hvne

theorem sanify_retention_bound_witness :
    (new_ver_dirs stW).length ≤ (2:Int).toNat ∧
    ∀ v ∈ new_ver_dirs stW, v ≠ nextId stW → v ∈ ["7"] :=
  sanify_retention_bound (mkLedger "W" (some ["7"])) stW 2 ["7"] ["7"] []
    (by decide) (by decide) (by decide)

/-- C3: scenario B: retention count 3, manifest 1..4, disk 1..4: `sanify`
succeeds with retention window 3,4, next id 5, retained ids 3,4,5, and the
subsequent `prune` deletes exactly directories 1 and 2. -/
theorem scenarioB :
    sanify (mkLedger "V" (some ["1","2","3","4"])) 3 ["1","2","3","4"] ["1","2","3","4"] =
      some { st := stB, msgs := [], rc := 0 } ∧
    retentionWindow stB = ["3","4"] ∧ nextId stB = "5" ∧ new_ver_dirs stB = ["3","4","5"] ∧
    prune (fun _ => false) stB =
      { st := { stB with pruned := true },
        msgs := [Msg.rmCommand "V/1", Msg.rmCommand "V/2"],
        attempted := ["1","2"], removed := ["1","2"], rc := 0 } := by decide

/-- C4: after every successful `sanify`, the next id is the decimal increment
of the last manifest entry when the manifest is non-empty and "1" when it is
empty; in particular on an empty versions root with empty manifest (scenario
A) `sanify` succeeds for every retention count with next id "1", retained ids
["1"] and empty retention window. -/
theorem sanify_nextId_rule (st st2 : Ledger) (num : Int) (logical fs : List String)
    (msgs : List Msg)
    (hsucc : sanify st num logical fs = some { st := st2, msgs := msgs, rc := 0 }) :
    (logical = [] → nextId st2 = "1") ∧
    (logical ≠ [] → ∃ n : Int, pyInt (logical.getLastD "") = some n ∧
      nextId st2 = toString (n + 1)) ∧
    (∀ m : Int, ∃ stA : Ledger,
      sanify (mkLedger "V" (some [])) m [] [] = some { st := stA, msgs := [], rc := 0 } ∧
      nextId stA = "1" ∧ new_ver_dirs stA = ["1"] ∧ retentionWindow stA = []) := by
  obtain ⟨nid, hst, -, -, hempty, hnonempty⟩ :=
    sanify_success_spec st st2 num logical fs msgs hsucc
  have hnext : nextId st2 = nid := by
    rw [nextId, hst]
    exact getLastD_concat_eq _ _ _
  refine ⟨fun hnil => by rw [hnext]; exact hempty hnil,
          fun hne => ?_, fun m => ?_⟩
  · obtain ⟨n, hp, hn⟩ := hnonempty hne
    exact ⟨n, hp, by rw [hnext, hn]⟩
  · refine ⟨{ verdir := "V", pview := true, sane := true, pruned := false,
              dirlist := [], keepers := ["1"], nextdir := "V/1" }, ?_, rfl, rfl, rfl⟩
    simp [sanify, mkLedger, sanifyFinish, pyJoin]

theorem sanify_nextId_rule_witness :
    ((["41"] : List String) = [] → nextId stU = "1") ∧
    ((["41"] : List String) ≠ [] → ∃ n : Int,
      pyInt ((["41"] : List String).getLastD "") = some n ∧
      nextId stU = toString (n + 1)) ∧
    (∀ m : Int, ∃ stA : Ledger,
      sanify (mkLedger "V" (some [])) m [] [] = some { st := stA, msgs := [], rc := 0 } ∧
      nextId stA = "1" ∧ new_ver_dirs stA = ["1"] ∧ retentionWindow stA = []) :=
  sanify_nextId_rule (mkLedger "U" (some ["41"])) stU 3 ["41"] ["41"] [] (by decide)

/-- C5: in every backup run that reaches the archive step (lock, load, sanify,
prune and directory creation all succeeded), failure of the archive command
does not prevent the manifest update: `set_ver_dirs` is still called and the
config save is still attempted. -/
theorem backup_records_after_archive_failure (e : BackupEnv)
    (hw : e.waitFails = false) (hl : e.loadFails = false) (hs : e.sanifyFails = false)
    (hp : e.pruneFails = false) (hm : e.mkdirFails = false) (ha : e.archiveFails = true) :
    Ev.setVerDirs ∈ (backup e).1 ∧ Ev.configSave ∈ (backup e).1 := by
  by_cases hsv : e.saveFails <;>
    simp [backup, hw, hl, hs, hp, hm, ha, hsv]

theorem backup_records_after_archive_failure_witness :
    Ev.setVerDirs ∈ (backup ⟨false, false, false, false, false, true, false⟩).1 ∧
    Ev.configSave ∈ (backup ⟨false, false, false, false, false, true, false⟩).1 :=
  backup_records_after_archive_failure ⟨false, false, false, false, false, true, false⟩
    rfl rfl rfl rfl rfl rfl

/-- C6: on every terminating path of a backup run in which the lock was
acquired, a lock release (a `signal` call) is attempted before the run ends:
either in-line or through the `atexit`-registered `tgt_clean` safety net. -/
theorem backup_releases_lock (e : BackupEnv) (hw : e.waitFails = false) :
    Ev.semSignal ∈ (backupRun e).1 := by
  simp [backupRun, tgt_clean_trace]

theorem backup_releases_lock_witness :
    Ev.semSignal ∈ (backupRun ⟨false, false, true, false, false, false, false⟩).1 :=
  backup_releases_lock ⟨false, false, true, false, false, false, false⟩ rfl

/-- C7 counterexample: on a validated ledger with prunable directories 1 and 2
where the deletion of 1 fails, `prune` still attempts both deletions but
returns 0, i.e. it does not report any aggregate failure to the caller. -/
theorem prune_no_aggregate_failure :
    (prune (fun v => v == "1") stC7).attempted = ["1","2"] ∧
    (prune (fun v => v == "1") stC7).removed = ["2"] ∧
    (prune (fun v => v == "1") stC7).rc = 0 := by decide

/-- C7 amended: a failure to delete one directory does not abort the remaining
deletions (all prunable directories are attempted), but `prune` ignores the
deletion results entirely and returns 0 regardless; no aggregate failure is
reported. -/
theorem prune_best_effort (rmFails : String → Bool) (st : Ledger)
    (h1 : st.sane = true) (h2 : st.pruned = false) :
    (prune rmFails st).attempted = st.dirlist.filter (fun v => !st.keepers.contains v) ∧
    (prune rmFails st).rc = 0 := by
  simp [prune, h1, h2]

theorem prune_best_effort_witness :
    (prune (fun v => v == "1") stC7).attempted =
      stC7.dirlist.filter (fun v => !stC7.keepers.contains v) ∧
    (prune (fun v => v == "1") stC7).rc = 0 :=
  prune_best_effort (fun v => v == "1") stC7 rfl rfl

/-- C8 counterexample: with the default ceiling of 120 and the marker file
never removed, `wait` performs 119 creation attempts, not 120, before
returning a timeout failure. -/
theorem wait_timeout_counterexample :
    (wait ⟨false, false⟩ true (fun _ => true) 120).attempts = 119 ∧
    (wait ⟨false, false⟩ true (fun _ => true) 120).attempts ≠ 120 ∧
    (wait ⟨false, false⟩ true (fun _ => true) 120).failed = true := by decide

/-- C8 amended: on an existing root where the marker file is never removed,
`wait` performs maxtries - 1 creation attempts, sleeping 1 second after each
failed attempt, before returning a timeout failure. -/
theorem wait_timeout_attempts (st : SemWorld) (maxtries : Nat) :
    wait st true (fun _ => true) maxtries =
      { st := st, failed := true, attempts := maxtries - 1, sleeps := maxtries - 1 } := by
  rw [wait]
  simp [waitLoop_all_occupied]

/-- C9: `signal` on an unheld semaphore returns failure (NotHeld) with no side
effect; after a successful `wait` followed by `signal`, the flag is cleared and
the marker file absent, and a second `signal` again returns NotHeld without
touching anything. -/
theorem signal_idempotent_roundtrip (st : SemWorld)
    (h1 : st.sem_locked = false) (h2 : st.marker = false) :
    signal st = { st := st, failed := true, msgs := [] } ∧
    wait st true (fun _ => false) 120 =
      { st := ⟨true, true⟩, failed := false, attempts := 1, sleeps := 0 } ∧
    signal ⟨true, true⟩ = { st := ⟨false, false⟩, failed := false, msgs := [] } ∧
    got_sem ⟨false, false⟩ = false ∧
    signal ⟨false, false⟩ = { st := ⟨false, false⟩, failed := true, msgs := [] } := by
  obtain ⟨l, m⟩ := st
  replace h1 : l = false := h1
  replace h2 : m = false := h2
  subst h1
  subst h2
  exact ⟨rfl, by decide, by decide, rfl, rfl⟩

theorem signal_idempotent_roundtrip_witness :
    signal ⟨false, false⟩ = { st := ⟨false, false⟩, failed := true, msgs := [] } ∧
    wait ⟨false, false⟩ true (fun _ => false) 120 =
      { st := ⟨true, true⟩, failed := false, attempts := 1, sleeps := 0 } :=
  ⟨(signal_idempotent_roundtrip ⟨false, false⟩ rfl rfl).1,
   (signal_idempotent_roundtrip ⟨false, false⟩ rfl rfl).2.1⟩

/-- C10: when the consistency check passes and the manifest is non-empty but
its last entry is not an integer string, `sanify` raises an uncaught
`ValueError` (modelled as `none`) instead of returning a typed error code. -/
theorem sanify_parse_exception (st : Ledger) (num : Int) (logical fs : List String)
    (hp : st.pview = true)
    (hc0 : st.dirlist.filter (fun v => !logical.contains v) = [])
    (hc1 : logical.filter (fun v => !st.dirlist.contains v) = [])
    (hne : logical ≠ [])
    (hbad : pyInt (logical.getLastD "") = none) :
    sanify st num logical fs = none := by
  simp only [sanify, hp, hc0, hc1]
  rw [if_neg (by simp), if_neg (by simp), if_pos (List.length_pos.2 hne), hbad]

theorem sanify_parse_exception_witness :
    sanify (mkLedger "V" (some ["x"])) 5 ["x"] ["x"] = none :=
  sanify_parse_exception (mkLedger "V" (some ["x"])) 5 ["x"] ["x"]
    rfl (by decide) (by decide) (by decide) (by decide)
